import Mathlib

/-!
Shallow embedding of `src/main.go` (tiktakgo): the 3x3 board, the shared
bubbletea model, the move function `updateCell`, the view-1 key handling of
`model.Update`, session registration (`RegisterSession` / `UnregisterSession` /
`teaHandler`) and the channel fan-out (`BroadcastMessage`).

Cell encoding follows the Go `pieces` map: `0` empty, `1` the circle mark of
players[0], `-1` the cross mark of players[1]; `2`/`3`/`4`/`5` are the
line-tag values written over a winning row / column / main diagonal /
anti-diagonal.  Rendering-only data (lipgloss styles, pty data, the text
input widget) is omitted; everything game-logic bearing is kept.
-/

/-- The Go `board [][]int`, a fixed 3x3 grid of ints, one named field per
cell (`aXY` is `board[X][Y]`). -/
structure Board where
  a00 : Int
  a01 : Int
  a02 : Int
  a10 : Int
  a11 : Int
  a12 : Int
  a20 : Int
  a21 : Int
  a22 : Int
deriving DecidableEq

/-- Read `board[x][y]`; indices outside 0..2 (never produced by the key map)
return 0. -/
def Board.get (b : Board) (x y : Nat) : Int :=
  match x, y with
  | 0, 0 => b.a00
  | 0, 1 => b.a01
  | 0, 2 => b.a02
  | 1, 0 => b.a10
  | 1, 1 => b.a11
  | 1, 2 => b.a12
  | 2, 0 => b.a20
  | 2, 1 => b.a21
  | 2, 2 => b.a22
  | _, _ => 0

/-- Write `board[x][y] = v`; indices outside 0..2 leave the board unchanged. -/
def Board.set (b : Board) (x y : Nat) (v : Int) : Board :=
  match x, y with
  | 0, 0 => { b with a00 := v }
  | 0, 1 => { b with a01 := v }
  | 0, 2 => { b with a02 := v }
  | 1, 0 => { b with a10 := v }
  | 1, 1 => { b with a11 := v }
  | 1, 2 => { b with a12 := v }
  | 2, 0 => { b with a20 := v }
  | 2, 1 => { b with a21 := v }
  | 2, 2 => { b with a22 := v }
  | _, _ => b

/-- The all-zero board literal `[][]int{{0,0,0},{0,0,0},{0,0,0}}`. -/
def emptyBoard : Board := ⟨0, 0, 0, 0, 0, 0, 0, 0, 0⟩

/-- The game-logic bearing fields of the Go `player` struct: `name`, `score`
and the outbound notification channel `ch` (modelled as an optional channel
identifier; styles and pty data are rendering-only and omitted). -/
structure Player where
  name : String
  score : Int
  ch : Option Nat
deriving DecidableEq

/-- The game-logic bearing fields of the Go `model` struct: `board`,
`currentPlayer`, `view` and the two entries of `players [2]player`
(`player0` is `players[0]`, `player1` is `players[1]`; the text input widget
is rendering-only and omitted). -/
structure Model where
  board : Board
  currentPlayer : Int
  view : Int
  player0 : Player
  player1 : Player
deriving DecidableEq

/-- `newBubbleteaModel`: view 1, currentPlayer 1, empty board, zero scores. -/
def newBubbleteaModel : Model :=
  { board := emptyBoard
    currentPlayer := 1
    view := 1
    player0 := { name := "", score := 0, ch := none }
    player1 := { name := "", score := 0, ch := none } }

/-- The mark-placement step at the top of `updateCell`: an empty cell takes
`m.currentPlayer` and flips `currentPlayer`; a cell holding 1 or -1 is
multiplied by -1 (owner toggled, turn untouched); any other value (a line
tag) is left alone. -/
def placePhase (m : Model) (x y : Nat) : Model :=
  let cell := m.board.get x y
  if cell = 0 then
    { m with board := m.board.set x y m.currentPlayer
             currentPlayer := m.currentPlayer * (-1) }
  else if cell = 1 ∨ cell = -1 then
    { m with board := m.board.set x y (cell * (-1)) }
  else
    m

/-- The row check of `updateCell`: if the three cells of row `x` are equal
they are overwritten with the tag 2 and victory is reported.  As in the
source, there is no guard that the shared value is a player mark. -/
def rowCheck (b : Board) (x : Nat) : Board × Bool :=
  if b.get x 0 = b.get x 1 ∧ b.get x 1 = b.get x 2 then
    ((((b.set x 0 2).set x 1 2).set x 2 2), true)
  else
    (b, false)

/-- The column check of `updateCell`: if the three cells of column `y` are
equal they are overwritten with the tag 3 and victory is reported.  As in
the source, there is no guard that the shared value is a player mark. -/
def colCheck (b : Board) (y : Nat) : Board × Bool :=
  if b.get 0 y = b.get 1 y ∧ b.get 1 y = b.get 2 y then
    ((((b.set 0 y 3).set 1 y 3).set 2 y 3), true)
  else
    (b, false)

/-- The main-diagonal check of `updateCell`: fires only when the three cells
are equal and the shared value is a player mark (1 or -1); tags with 4. -/
def diagCheck (b : Board) : Board × Bool :=
  if b.get 0 0 = b.get 1 1 ∧ b.get 1 1 = b.get 2 2 then
    if b.get 1 1 = 1 ∨ b.get 1 1 = -1 then
      ((((b.set 0 0 4).set 1 1 4).set 2 2 4), true)
    else
      (b, false)
  else
    (b, false)

/-- The anti-diagonal check of `updateCell`: fires only when the three cells
are equal and the shared value is a player mark (1 or -1); tags with 5. -/
def adiagCheck (b : Board) : Board × Bool :=
  if b.get 0 2 = b.get 1 1 ∧ b.get 1 1 = b.get 2 0 then
    if b.get 1 1 = 1 ∨ b.get 1 1 = -1 then
      ((((b.set 0 2 5).set 1 1 5).set 2 0 5), true)
    else
      (b, false)
  else
    (b, false)

/-- The four sequential line checks of `updateCell`, threading the mutated
board exactly as the Go code does (the row tags written by an earlier check
are visible to the later checks), and accumulating the `victory` flag. -/
def runChecks (b : Board) (x y : Nat) : Board × Bool :=
  let r := rowCheck b x
  let c := colCheck r.1 y
  let d := diagCheck c.1
  let e := adiagCheck d.1
  (e.1, r.2 || c.2 || d.2 || e.2)

/-- The tail of `updateCell`: run the line checks and, on victory, increment
`players[0].score` when the (already flipped) `currentPlayer` is not 1,
otherwise `players[1].score`. -/
def checkPhase (m : Model) (x y : Nat) : Model :=
  let r := runChecks m.board x y
  let m2 := { m with board := r.1 }
  if r.2 then
    if m2.currentPlayer ≠ 1 then
      { m2 with player0 := { m2.player0 with score := m2.player0.score + 1 } }
    else
      { m2 with player1 := { m2.player1 with score := m2.player1.score + 1 } }
  else
    m2

/-- `updateCell(m, x, y)`: mark placement followed by the line checks and
score update, exactly in source order. -/
def updateCell (m : Model) (x y : Nat) : Model :=
  checkPhase (placePhase m x y) x y

/-- Whether the `victory` flag of `updateCell m x y` fires: the line checks
evaluated on the board produced by the placement step. -/
def moveFires (m : Model) (x y : Nat) : Bool :=
  (runChecks (placePhase m x y).board x y).2

/-- Fold a list of `(x, y)` moves through `updateCell`. -/
def playMoves (m : Model) (ms : List (Nat × Nat)) : Model :=
  ms.foldl (fun acc p => updateCell acc p.1 p.2) m

/-- A move sequence is quiet from `m` when every move lands on an empty cell
of the evolving state and never fires the victory flag. -/
def validQuiet (m : Model) : List (Nat × Nat) → Bool
  | [] => true
  | p :: rest =>
      (m.board.get p.1 p.2 == 0) && (!(moveFires m p.1 p.2)) &&
        validQuiet (updateCell m p.1 p.2) rest

/-- The view-1 `tea.KeyMsg` branch of `model.Update`, in source order:
`ctrl+c` quits (model unchanged here), the nine letter keys call
`updateCell` on their fixed coordinates, the digits switch `view`, `esc`
replaces the board with a fresh all-zero literal, anything else is a no-op.
The view-0 naming branch drives the omitted text input widget and is not
modelled. -/
def updateKey (m : Model) (key : String) : Model :=
  if m.view = 1 then
    if key = "ctrl+c" then m
    else if key = "q" then updateCell m 0 0
    else if key = "w" then updateCell m 0 1
    else if key = "e" then updateCell m 0 2
    else if key = "a" then updateCell m 1 0
    else if key = "s" then updateCell m 1 1
    else if key = "d" then updateCell m 1 2
    else if key = "z" then updateCell m 2 0
    else if key = "x" then updateCell m 2 1
    else if key = "c" then updateCell m 2 2
    else if key = "0" then { m with view := 0 }
    else if key = "1" then { m with view := 1 }
    else if key = "2" then { m with view := 2 }
    else if key = "esc" then { m with board := emptyBoard }
    else m
  else m

/-- The shared Go `gameState`: the two `*ssh.Session` slots of
`players [2]*ssh.Session` (modelled by optional session ids), the shared
`model`, and the `sessions map[string]chan tea.Msg` (modelled as an
association list from session id to channel id; the mutex serialising
access is implicit in the sequential embedding). -/
structure GameState where
  playersConn : Option String × Option String
  m : Model
  sessions : List (String × Nat)
deriving DecidableEq

/-- Go map assignment `gs.sessions[id] = ch`. -/
def mapSet (s : List (String × Nat)) (id : String) (ch : Nat) :
    List (String × Nat) :=
  (id, ch) :: s.filter (fun p => p.1 ≠ id)

/-- `RegisterSession`: stores the channel in the session map, then binds it
to `players[0].ch` if that is nil and otherwise (unconditionally) to
`players[1].ch`.  The goroutine it spawns to pump redraw broadcasts is
concurrency-only and not modelled. -/
def RegisterSession (gs : GameState) (id : String) (ch : Nat) : GameState :=
  let gs1 := { gs with sessions := mapSet gs.sessions id ch }
  if gs1.m.player0.ch = none then
    { gs1 with m := { gs1.m with
        player0 := { gs1.m.player0 with ch := some ch } } }
  else
    { gs1 with m := { gs1.m with
        player1 := { gs1.m.player1 with ch := some ch } } }

/-- `UnregisterSession`: `delete(gs.sessions, id)`. -/
def UnregisterSession (gs : GameState) (id : String) : GameState :=
  { gs with sessions := gs.sessions.filter (fun p => p.1 ≠ id) }

/-- `teaHandler`: registers the fresh session and channel, binds the first
free entry of `state.players` and copies the user name into the model
(rendering data omitted), or closes the connection when both entries are
taken (the returned Bool is true when the raw connection was closed).  The
`defer state.UnregisterSession(sessionID)` runs when `teaHandler` returns,
so the final state has the session removed from the map again. -/
def teaHandler (gs : GameState) (sessionID user : String) (ch : Nat) :
    GameState × Bool :=
  let gs1 := RegisterSession gs sessionID ch
  let r :=
    if gs1.playersConn.1 = none then
      ({ gs1 with
          playersConn := (some sessionID, gs1.playersConn.2)
          m := { gs1.m with player0 := { gs1.m.player0 with name := user } } },
        false)
    else if gs1.playersConn.2 = none then
      ({ gs1 with
          playersConn := (gs1.playersConn.1, some sessionID)
          m := { gs1.m with player1 := { gs1.m.player1 with name := user } } },
        false)
    else
      (gs1, true)
  (UnregisterSession r.1 sessionID, r.2)

/-- A Go channel of `tea.Msg` (messages modelled as Nat), as its capacity
and current buffer contents. -/
structure MsgChan where
  capacity : Nat
  buf : List Nat
deriving DecidableEq

/-- `make(chan tea.Msg)`: an unbuffered channel, capacity 0. -/
def mkMsgChan : MsgChan := { capacity := 0, buf := [] }

/-- A plain Go send `ch <- msg` with no concurrently ready receiver: it
completes only when the buffer has room, and otherwise the sender blocks
(modelled as `none`).  The source never uses a `select` with `default`, so
there is no drop-on-full path. -/
def chanSend (c : MsgChan) (msg : Nat) : Option MsgChan :=
  if c.buf.length < c.capacity then some { c with buf := c.buf ++ [msg] }
  else none

/-- `BroadcastMessage`: `ch <- msg` for every registered channel in turn;
the whole loop completes only if every send completes. -/
def BroadcastMessage (chans : List MsgChan) (msg : Nat) :
    Option (List MsgChan) :=
  match chans with
  | [] => some []
  | c :: rest =>
      match chanSend c msg with
      | none => none
      | some c2 =>
          match BroadcastMessage rest msg with
          | none => none
          | some r => some (c2 :: r)

/-- A finished round, reached from the fresh model by the key sequence
q a w s e: circle wins row 0, whose cells are tagged 2, and
`players[0].score` is 1. -/
def mWin : Model :=
  playMoves newBubbleteaModel [(0, 0), (1, 0), (0, 1), (1, 1), (0, 2)]

/-- A mid-game state reached by the key sequence q e w: row 0 holds
circle, circle, cross and it is the cross player's turn. -/
def mC1 : Model :=
  playMoves newBubbleteaModel [(0, 0), (0, 2), (0, 1)]

/-- A board with a single circle mark in the top-left corner. -/
def mT : Model :=
  { newBubbleteaModel with board := ⟨1, 0, 0, 0, 0, 0, 0, 0, 0⟩ }

/-- A winning-in-one state: circle to move with two circles on row 0. -/
def mW1 : Model :=
  { newBubbleteaModel with board := ⟨1, 1, 0, -1, -1, 0, 0, 0, 0⟩ }

/-- The nine-move fill order used to exercise a full board with no line:
X 00, O 01, X 02, O 11, X 10, O 12, X 21, O 20, X 22. -/
def drawMoves : List (Nat × Nat) :=
  [(0, 0), (0, 1), (0, 2), (1, 1), (1, 0), (1, 2), (2, 1), (2, 0), (2, 2)]

/-- The resulting full board of `drawMoves`: no three equal cells on any of
the eight lines, every cell a player mark. -/
def drawBoard : Board := ⟨1, -1, 1, 1, -1, -1, -1, 1, 1⟩

/-- Every cell of the board is non-empty. -/
def boardFull (b : Board) : Bool :=
  (b.a00 != 0) && (b.a01 != 0) && (b.a02 != 0) &&
  (b.a10 != 0) && (b.a11 != 0) && (b.a12 != 0) &&
  (b.a20 != 0) && (b.a21 != 0) && (b.a22 != 0)

/-- The empty game state the server starts from. -/
def gs0 : GameState :=
  { playersConn := (none, none), m := newBubbleteaModel, sessions := [] }

/-- State after the first connection (session sA, user alice, channel 1). -/
def gsA : GameState := (teaHandler gs0 "sA" "alice" 1).1

/-- State after the second connection (session sB, user bob, channel 2). -/
def gsB : GameState := (teaHandler gsA "sB" "bob" 2).1

/-- A short quiet move list used as a concrete witness input. -/
def wMoves : List (Nat × Nat) := [(0, 0), (1, 1)]

/-- Out-of-range indices read as 0. -/
theorem Board.get_oob (b : Board) (x y : Nat) (h : 3 ≤ x ∨ 3 ≤ y) :
    b.get x y = 0 := by
  rcases x with _ | _ | _ | n <;> rcases y with _ | _ | _ | k <;>
    first
      | rfl
      | omega

/-- A cell that reads non-zero lies inside the 3x3 range. -/
theorem Board.get_mark_bounds (b : Board) (x y : Nat)
    (h : b.get x y ≠ 0) : x < 3 ∧ y < 3 := by
  rcases Nat.lt_or_ge x 3 with hx | hx
  · rcases Nat.lt_or_ge y 3 with hy | hy
    · exact ⟨hx, hy⟩
    · exact absurd (Board.get_oob b x y (Or.inr hy)) h
  · exact absurd (Board.get_oob b x y (Or.inl hx)) h

/-- Reading back an in-range write. -/
theorem Board.get_set_self (b : Board) (x y : Nat) (v : Int)
    (hx : x < 3) (hy : y < 3) : (b.set x y v).get x y = v := by
  interval_cases x <;> interval_cases y <;> rfl

/-- The check phase never touches the turn variable. -/
theorem checkPhase_currentPlayer (m : Model) (x y : Nat) :
    (checkPhase m x y).currentPlayer = m.currentPlayer := by
  simp only [checkPhase]
  split_ifs <;> rfl

/-- With the victory flag down, the check phase only rewrites the board. -/
theorem checkPhase_no_win (m : Model) (x y : Nat)
    (h : (runChecks m.board x y).2 = false) :
    (checkPhase m x y).player0 = m.player0 ∧
      (checkPhase m x y).player1 = m.player1 := by
  simp [checkPhase, h]

/-- With the victory flag up, exactly one score is incremented by one,
chosen by comparing the post-placement turn value with 1. -/
theorem checkPhase_win_score (m : Model) (x y : Nat)
    (h : (runChecks m.board x y).2 = true) :
    (m.currentPlayer ≠ 1 →
      (checkPhase m x y).player0.score = m.player0.score + 1 ∧
        (checkPhase m x y).player1 = m.player1) ∧
    (m.currentPlayer = 1 →
      (checkPhase m x y).player1.score = m.player1.score + 1 ∧
        (checkPhase m x y).player0 = m.player0) := by
  constructor <;> intro hc <;> simp [checkPhase, h, hc]

/-- The placement phase never touches the player records. -/
theorem placePhase_players (m : Model) (x y : Nat) :
    (placePhase m x y).player0 = m.player0 ∧
      (placePhase m x y).player1 = m.player1 := by
  simp only [placePhase]
  split_ifs <;> exact ⟨rfl, rfl⟩

/-- Placement on an empty cell writes the mover's mark and flips the turn. -/
theorem placePhase_empty (m : Model) (x y : Nat)
    (h : m.board.get x y = 0) :
    placePhase m x y =
      { m with board := m.board.set x y m.currentPlayer
               currentPlayer := m.currentPlayer * (-1) } := by
  simp only [placePhase]
  rw [if_pos h]

/-- Placement on a cell holding a player mark toggles the mark and keeps
the turn. -/
theorem placePhase_toggle (m : Model) (x y : Nat)
    (h : m.board.get x y = 1 ∨ m.board.get x y = -1) :
    placePhase m x y =
      { m with board := m.board.set x y (m.board.get x y * (-1)) } := by
  have h0 : m.board.get x y ≠ 0 := by rcases h with h | h <;> simp [h]
  simp only [placePhase]
  rw [if_neg h0, if_pos h]

/-- Placement on a cell holding any other value (a line tag) is a no-op. -/
theorem placePhase_tag (m : Model) (x y : Nat)
    (h0 : m.board.get x y ≠ 0) (h1 : m.board.get x y ≠ 1)
    (h2 : m.board.get x y ≠ -1) :
    placePhase m x y = m := by
  simp only [placePhase]
  rw [if_neg h0, if_neg (not_or.mpr ⟨h1, h2⟩)]

/-- C10: the turn variable advances only on a placement into an empty cell;
a move on an occupied cell (toggle or tagged) leaves `currentPlayer`
unchanged, so the same player remains the mover afterwards. -/
theorem updateCell_turn (m : Model) (x y : Nat) :
    (updateCell m x y).currentPlayer =
      if m.board.get x y = 0 then m.currentPlayer * (-1)
      else m.currentPlayer := by
  unfold updateCell
  rw [checkPhase_currentPlayer]
  simp only [placePhase]
  split_ifs <;> rfl

/-- C7: a move on a cell holding a player mark is never rejected and never
leaves the cell as it was: the placement phase replaces the mark by its
opposite (leaving the turn with the mover), and the whole move is that
toggle followed by the usual line checks. -/
theorem updateCell_toggle (m : Model) (x y : Nat)
    (h : m.board.get x y = 1 ∨ m.board.get x y = -1) :
    placePhase m x y =
        { m with board := m.board.set x y (m.board.get x y * (-1)) } ∧
      (placePhase m x y).board.get x y = -(m.board.get x y) ∧
      updateCell m x y =
        checkPhase
          { m with board := m.board.set x y (m.board.get x y * (-1)) }
          x y := by
  have h0 : m.board.get x y ≠ 0 := by rcases h with h | h <;> simp [h]
  have hb := Board.get_mark_bounds m.board x y h0
  have hp := placePhase_toggle m x y h
  refine ⟨hp, ?_, ?_⟩
  · rw [hp]
    show (m.board.set x y (m.board.get x y * (-1))).get x y =
      -(m.board.get x y)
    rw [Board.get_set_self m.board x y _ hb.1 hb.2, mul_neg_one]
  · unfold updateCell
    rw [hp]

/-- C7 witness: on a board whose top-left cell holds the circle mark, the
toggle theorem applies at (0,0). -/
theorem updateCell_toggle_witness :
    (mT.board.get 0 0 = 1 ∨ mT.board.get 0 0 = -1) ∧
      (placePhase mT 0 0 =
          { mT with board := mT.board.set 0 0 (mT.board.get 0 0 * (-1)) } ∧
        (placePhase mT 0 0).board.get 0 0 = -(mT.board.get 0 0) ∧
        updateCell mT 0 0 =
          checkPhase
            { mT with board := mT.board.set 0 0 (mT.board.get 0 0 * (-1)) }
            0 0) :=
  ⟨by decide, updateCell_toggle mT 0 0 (by decide)⟩

/-- C2 counterexample: `mWin` is reached by actual play (circle wins row 0,
whose cells are tagged 2 and player 0 scored).  A later move on the empty
cell (2,0) still writes a mark there, and a later move on the tagged cell
(0,0) re-fires the tagged row and increments player 0's score again, so
moves after a win are neither no-ops nor rejected. -/
theorem post_win_board_still_mutates :
    mWin.board.a00 = 2 ∧ mWin.player0.score = 1 ∧
      mWin.board.get 2 0 = 0 ∧
      (updateCell mWin 2 0).board.get 2 0 = -1 ∧
      (updateCell mWin 0 0).player0.score = mWin.player0.score + 1 := by
  decide

/-- C2 (amended): after a win only the tagged cells themselves reject
marks: a move aimed at a cell holding a line-tag value leaves the placement
phase a no-op (that cell's value and the turn are untouched), and the whole
move degenerates to re-running the line checks on the unchanged board.
Moves on other cells still place or toggle marks, and scores can still
change. -/
theorem updateCell_tagged_cell (m : Model) (x y : Nat)
    (h0 : m.board.get x y ≠ 0) (h1 : m.board.get x y ≠ 1)
    (h2 : m.board.get x y ≠ -1) :
    placePhase m x y = m ∧ updateCell m x y = checkPhase m x y := by
  have hp := placePhase_tag m x y h0 h1 h2
  exact ⟨hp, by unfold updateCell; rw [hp]⟩

/-- C2 witness: the tagged cell (0,0) of the finished round `mWin`. -/
theorem updateCell_tagged_cell_witness :
    (mWin.board.get 0 0 ≠ 0 ∧ mWin.board.get 0 0 ≠ 1 ∧
        mWin.board.get 0 0 ≠ -1) ∧
      (placePhase mWin 0 0 = mWin ∧
        updateCell mWin 0 0 = checkPhase mWin 0 0) :=
  ⟨⟨by decide, by decide, by decide⟩,
    updateCell_tagged_cell mWin 0 0 (by decide) (by decide) (by decide)⟩

/-- C3 evidence: the row check fires on a line whose shared value is the
tag 2 left by a previous win, not a placed mark: pressing the (0,0) key in
the finished round `mWin` counts a new win on the all-2 row and increments
player 0's score once more. -/
theorem row_check_fires_on_tags :
    mWin.board.a00 = 2 ∧ mWin.board.a01 = 2 ∧ mWin.board.a02 = 2 ∧
      moveFires mWin 0 0 = true ∧
      (updateCell mWin 0 0).player0.score = mWin.player0.score + 1 := by
  decide

/-- C4 evidence: filling all nine cells with no line of three equal marks
leaves the model identical to the fresh one except for the full board and
the turn parity: both scores stay 0 and the view is unchanged; the code has
no Draw outcome and no phase variable, so nothing marks the round as over. -/
theorem full_board_no_draw_handling :
    playMoves newBubbleteaModel drawMoves =
        { newBubbleteaModel with board := drawBoard, currentPlayer := -1 } ∧
      boardFull drawBoard = true := by
  decide

/-- C1 counterexample: in `mC1` the cross player (turn -1) toggles the
cross mark at (0,2) into a circle, completing the all-circle row 0 and
firing the victory flag; the turn is not flipped, the mover's score is
unchanged, and the point goes to the opposite player 0 — so the score
incremented is not that of the turn value before the move. -/
theorem toggle_win_misattribution :
    mC1.currentPlayer = -1 ∧ mC1.board.get 0 2 = -1 ∧
      moveFires mC1 0 2 = true ∧
      (updateCell mC1 0 2).currentPlayer = -1 ∧
      (updateCell mC1 0 2).player1.score = mC1.player1.score ∧
      (updateCell mC1 0 2).player0.score = mC1.player0.score + 1 := by
  decide

/-- C1 (amended): on every move that fires the victory flag exactly one
score is incremented by exactly 1, namely player 0's when the
post-placement turn value differs from 1 and player 1's otherwise; when the
winning mark was placed on an empty cell this attributes the point to the
mover (the pre-flip turn).  The code keeps no phase variable, so no
RoundOver transition accompanies the score change. -/
theorem updateCell_win_scoring (m : Model) (x y : Nat)
    (hf : moveFires m x y = true) :
    ((placePhase m x y).currentPlayer ≠ 1 →
        (updateCell m x y).player0.score = m.player0.score + 1 ∧
          (updateCell m x y).player1.score = m.player1.score) ∧
      ((placePhase m x y).currentPlayer = 1 →
        (updateCell m x y).player1.score = m.player1.score + 1 ∧
          (updateCell m x y).player0.score = m.player0.score) ∧
      (m.board.get x y = 0 → m.currentPlayer = 1 →
        (updateCell m x y).player0.score = m.player0.score + 1 ∧
          (updateCell m x y).player1.score = m.player1.score) ∧
      (m.board.get x y = 0 → m.currentPlayer = -1 →
        (updateCell m x y).player1.score = m.player1.score + 1 ∧
          (updateCell m x y).player0.score = m.player0.score) := by
  have hf2 : (runChecks (placePhase m x y).board x y).2 = true := hf
  have hpl := placePhase_players m x y
  have hw := checkPhase_win_score (placePhase m x y) x y hf2
  have hA : (placePhase m x y).currentPlayer ≠ 1 →
      (updateCell m x y).player0.score = m.player0.score + 1 ∧
        (updateCell m x y).player1.score = m.player1.score := by
    intro hne
    obtain ⟨ha, hb⟩ := hw.1 hne
    constructor
    · show (checkPhase (placePhase m x y) x y).player0.score = _
      rw [ha, hpl.1]
    · show (checkPhase (placePhase m x y) x y).player1.score = _
      rw [hb, hpl.2]
  have hB : (placePhase m x y).currentPlayer = 1 →
      (updateCell m x y).player1.score = m.player1.score + 1 ∧
        (updateCell m x y).player0.score = m.player0.score := by
    intro heq
    obtain ⟨ha, hb⟩ := hw.2 heq
    constructor
    · show (checkPhase (placePhase m x y) x y).player1.score = _
      rw [ha, hpl.2]
    · show (checkPhase (placePhase m x y) x y).player0.score = _
      rw [hb, hpl.1]
  have hcp1 : m.board.get x y = 0 →
      (placePhase m x y).currentPlayer = m.currentPlayer * (-1) := by
    intro h0
    rw [placePhase_empty m x y h0]
  refine ⟨hA, hB, ?_, ?_⟩
  · intro h0 hc
    refine hA ?_
    rw [hcp1 h0, hc]
    norm_num
  · intro h0 hc
    refine hB ?_
    rw [hcp1 h0, hc]
    norm_num

/-- C1 witness: circle completes row 0 by placing on the empty cell (0,2)
of `mW1`; the victory flag fires and the mover's (player 0's) score is the
one incremented. -/
theorem updateCell_win_scoring_witness :
    moveFires mW1 0 2 = true ∧
      ((updateCell mW1 0 2).player0.score = mW1.player0.score + 1 ∧
        (updateCell mW1 0 2).player1.score = mW1.player1.score) :=
  ⟨by decide,
    (updateCell_win_scoring mW1 0 2 (by decide)).2.2.1 (by decide) (by decide)⟩

/-- A quiet move (empty target cell, victory flag down) flips the turn and
leaves both player records untouched. -/
theorem quiet_step (m : Model) (x y : Nat) (h0 : m.board.get x y = 0)
    (hf : moveFires m x y = false) :
    (updateCell m x y).currentPlayer = m.currentPlayer * (-1) ∧
      (updateCell m x y).player0 = m.player0 ∧
      (updateCell m x y).player1 = m.player1 := by
  have hf2 : (runChecks (placePhase m x y).board x y).2 = false := hf
  have hnw := checkPhase_no_win (placePhase m x y) x y hf2
  have hpl := placePhase_players m x y
  refine ⟨?_, ?_, ?_⟩
  · show (checkPhase (placePhase m x y) x y).currentPlayer = _
    rw [checkPhase_currentPlayer, placePhase_empty m x y h0]
  · show (checkPhase (placePhase m x y) x y).player0 = _
    rw [hnw.1, hpl.1]
  · show (checkPhase (placePhase m x y) x y).player1 = _
    rw [hnw.2, hpl.2]

/-- C8: along any sequence of moves each landing on an empty cell and never
firing the victory flag, every prefix leaves both scores at their initial
values, the turn stays in the two-player set, and each move strictly flips
the turn to the other player. -/
theorem turn_alternation (m : Model) (ms : List (Nat × Nat))
    (hcp : m.currentPlayer = 1 ∨ m.currentPlayer = -1)
    (hv : validQuiet m ms = true) :
    ∀ i : Nat,
      (playMoves m (ms.take i)).player0.score = m.player0.score ∧
        (playMoves m (ms.take i)).player1.score = m.player1.score ∧
        ((playMoves m (ms.take i)).currentPlayer = 1 ∨
          (playMoves m (ms.take i)).currentPlayer = -1) ∧
        (i < ms.length →
          (playMoves m (ms.take (i + 1))).currentPlayer =
            -(playMoves m (ms.take i)).currentPlayer) := by
  induction ms generalizing m with
  | nil =>
      intro i
      simp only [List.take_nil]
      refine ⟨rfl, rfl, hcp, ?_⟩
      intro hlt
      simp at hlt
  | cons p rest ih =>
      have hv2 := hv
      simp only [validQuiet, Bool.and_eq_true, beq_iff_eq,
        Bool.not_eq_true'] at hv2
      obtain ⟨⟨h0, hfire⟩, hrest⟩ := hv2
      have hstep := quiet_step m p.1 p.2 h0 hfire
      have hcp1 : (updateCell m p.1 p.2).currentPlayer = 1 ∨
          (updateCell m p.1 p.2).currentPlayer = -1 := by
        rcases hcp with h | h <;> rw [hstep.1, h] <;> norm_num
      have hm1 := ih (updateCell m p.1 p.2) hcp1 hrest
      intro i
      cases i with
      | zero =>
          refine ⟨rfl, rfl, hcp, ?_⟩
          intro _
          show (updateCell m p.1 p.2).currentPlayer = -(m.currentPlayer)
          rw [hstep.1]
          ring
      | succ j =>
          have hj := hm1 j
          have ht : ∀ k : Nat,
              (p :: rest).take (k + 1) = p :: rest.take k := fun _ => rfl
          have hplay : ∀ l : List (Nat × Nat),
              playMoves m (p :: l) = playMoves (updateCell m p.1 p.2) l :=
            fun _ => rfl
          refine ⟨?_, ?_, ?_, ?_⟩
          · rw [ht j, hplay (rest.take j), hj.1, hstep.2.1]
          · rw [ht j, hplay (rest.take j), hj.2.1, hstep.2.2]
          · rw [ht j, hplay (rest.take j)]
            exact hj.2.2.1
          · intro hlt
            have hlt2 : j < rest.length := by
              simpa using hlt
            rw [ht (j + 1), ht j, hplay (rest.take (j + 1)),
              hplay (rest.take j)]
            exact hj.2.2.2 hlt2

/-- C8 witness: the two quiet opening moves q and s from the fresh model,
checked at prefix index 1. -/
theorem turn_alternation_witness :
    (newBubbleteaModel.currentPlayer = 1 ∨
        newBubbleteaModel.currentPlayer = -1) ∧
      validQuiet newBubbleteaModel wMoves = true ∧
      ((playMoves newBubbleteaModel (wMoves.take 1)).player0.score =
          newBubbleteaModel.player0.score ∧
        (playMoves newBubbleteaModel (wMoves.take 1)).player1.score =
          newBubbleteaModel.player1.score ∧
        ((playMoves newBubbleteaModel (wMoves.take 1)).currentPlayer = 1 ∨
          (playMoves newBubbleteaModel (wMoves.take 1)).currentPlayer = -1) ∧
        (1 < wMoves.length →
          (playMoves newBubbleteaModel (wMoves.take (1 + 1))).currentPlayer =
            -(playMoves newBubbleteaModel (wMoves.take 1)).currentPlayer)) :=
  ⟨Or.inl rfl, by decide,
    turn_alternation newBubbleteaModel wMoves (Or.inl rfl) (by decide) 1⟩

/-- C9: with the board view active, the esc key replaces the board with the
all-empty literal and changes nothing else: both players (names, scores,
channels), the turn and the view are exactly preserved. -/
theorem esc_resets_board (m : Model) (h : m.view = 1) :
    updateKey m "esc" = { m with board := emptyBoard } := by
  simp +decide [updateKey, h]

/-- C9 witness: pressing esc in the finished round `mWin` (scores 1 and 0)
clears the board and keeps both scores. -/
theorem esc_resets_board_witness :
    mWin.view = 1 ∧ updateKey mWin "esc" = { mWin with board := emptyBoard } :=
  ⟨by decide, esc_resets_board mWin (by decide)⟩

/-- C5 counterexample: after sessions sA and sB are bound to the two player
slots, a third connection sC is indeed closed, but slot 1's notification
channel — bound to sB's channel 2 — is overwritten with sC's channel 3, so
the second player's slot binding is not left as it was. -/
theorem third_session_overwrites_channel :
    gsB.m.player1.ch = some 2 ∧
      (teaHandler gsB "sC" "carol" 3).2 = true ∧
      (teaHandler gsB "sC" "carol" 3).1.m.player1.ch = some 3 := by
  decide

/-- C5 (amended): when both connection slots are taken (and slot 0 already
has a channel), a further `teaHandler` call closes the new connection and
preserves player 0 entirely and player 1's name and score, the slot
bindings and the board — but `RegisterSession` still mutates the model,
overwriting player 1's notification channel with the newcomer's channel. -/
theorem third_session_rejected (gs : GameState) (id u : String) (ch : Nat)
    (h0 : gs.playersConn.1 ≠ none) (h1 : gs.playersConn.2 ≠ none)
    (h2 : gs.m.player0.ch ≠ none) :
    (teaHandler gs id u ch).2 = true ∧
      (teaHandler gs id u ch).1.m.player0 = gs.m.player0 ∧
      (teaHandler gs id u ch).1.m.player1.name = gs.m.player1.name ∧
      (teaHandler gs id u ch).1.m.player1.score = gs.m.player1.score ∧
      (teaHandler gs id u ch).1.m.player1.ch = some ch ∧
      (teaHandler gs id u ch).1.playersConn = gs.playersConn ∧
      (teaHandler gs id u ch).1.m.board = gs.m.board := by
  simp [teaHandler, RegisterSession, UnregisterSession, h0, h1, h2]

/-- C5 witness: the concrete third connection sC after sA and sB. -/
theorem third_session_rejected_witness :
    (gsB.playersConn.1 ≠ none ∧ gsB.playersConn.2 ≠ none ∧
        gsB.m.player0.ch ≠ none) ∧
      ((teaHandler gsB "sC" "carol" 3).2 = true ∧
        (teaHandler gsB "sC" "carol" 3).1.m.player0 = gsB.m.player0 ∧
        (teaHandler gsB "sC" "carol" 3).1.m.player1.name =
          gsB.m.player1.name ∧
        (teaHandler gsB "sC" "carol" 3).1.m.player1.score =
          gsB.m.player1.score ∧
        (teaHandler gsB "sC" "carol" 3).1.m.player1.ch = some 3 ∧
        (teaHandler gsB "sC" "carol" 3).1.playersConn = gsB.playersConn ∧
        (teaHandler gsB "sC" "carol" 3).1.m.board = gsB.m.board) :=
  ⟨⟨by decide, by decide, by decide⟩,
    third_session_rejected gsB "sC" "carol" 3 (by decide) (by decide)
      (by decide)⟩

/-- C6 evidence: with any registered session holding the unbuffered channel
the program creates (`make(chan tea.Msg)`, capacity 0) and no receiver
concurrently ready, the plain send inside `BroadcastMessage` can never
complete, so the broadcast blocks instead of dropping the notification;
there is no bounded, non-blocking, drop-on-full path in the source. -/
theorem broadcast_blocks_on_unbuffered (msg : Nat) (rest : List MsgChan) :
    BroadcastMessage (mkMsgChan :: rest) msg = none := by
  simp [BroadcastMessage, chanSend, mkMsgChan]
